import Mathlib

/-!
Verification of the `worklog` time-tracking package.

Shallow embedding of the Python sources:
  - `worklog/models.py`  : `WorkEntry`, `WorkEntry.from_row`, `WorkEntry.to_row`
  - `worklog/reports.py` : `minutes_to_hhmm`, `totals_by_project`, `summary`
  - `worklog/cli.py`     : `filter_by_date_range`, the report document built
    by `cmd_report`
  - `worklog/storage.py` : `delete_entry` (the `DELETE FROM entries WHERE
    id = ?` statement), modelled over an explicit table state

Python machine-level conventions used by the code are embedded explicitly:
`datetime.date` values are (year, month, day) triples ordered
lexicographically, `//` and `%` on `int` are floor division and modulus
(`Int.fdiv` / `Int.emod`), `str.strip` removes surrounding ASCII whitespace,
and `int(text)` parses an optional sign followed by decimal digits
(Python additionally allows underscore digit grouping, which no claim
touches).
-/

set_option autoImplicit false

namespace Worklog

/-! ### Calendar dates (`datetime.date`) -/

/-- A `datetime.date`: a (year, month, day) triple.  Values produced by the
parser always satisfy `Date.isValid`. -/
structure Date where
  year : Nat
  month : Nat
  day : Nat
deriving DecidableEq

/-- Gregorian leap-year rule used by `datetime`. -/
def isLeapYear (y : Nat) : Bool :=
  y % 4 == 0 && (y % 100 != 0 || y % 400 == 0)

/-- Number of days in a month, as in `datetime`. -/
def daysInMonth (y m : Nat) : Nat :=
  if m = 2 then (if isLeapYear y then 29 else 28)
  else if m = 4 ∨ m = 6 ∨ m = 9 ∨ m = 11 then 30
  else 31

/-- `datetime.date(y, m, d)` accepts exactly these triples
(`MINYEAR = 1`, `MAXYEAR = 9999`). -/
def Date.isValid (y m d : Nat) : Prop :=
  1 ≤ y ∧ y ≤ 9999 ∧ 1 ≤ m ∧ m ≤ 12 ∧ 1 ≤ d ∧ d ≤ daysInMonth y m

instance (y m d : Nat) : Decidable (Date.isValid y m d) := by
  unfold Date.isValid; exact inferInstance

/-- Value of a decimal digit character. -/
def digitVal (c : Char) : Nat := c.toNat - 48

/-- Decimal value of a digit string. -/
def digitsToNat (cs : List Char) : Nat :=
  cs.foldl (fun n c => n * 10 + digitVal c) 0

/-- `datetime.date.fromisoformat`: accepts exactly `YYYY-MM-DD` (four, two
and two decimal digits), then validates the calendar triple; every other
input raises `ValueError`, embedded as `Option.none`. -/
def Date.fromisoformat (s : String) : Option Date :=
  match s.toList with
  | [y1, y2, y3, y4, '-', m1, m2, '-', d1, d2] =>
    if y1.isDigit && y2.isDigit && y3.isDigit && y4.isDigit &&
        m1.isDigit && m2.isDigit && d1.isDigit && d2.isDigit then
      let y := digitsToNat [y1, y2, y3, y4]
      let m := digitsToNat [m1, m2]
      let d := digitsToNat [d1, d2]
      if Date.isValid y m d then Option.some ⟨y, m, d⟩ else Option.none
    else Option.none
  | _ => Option.none

/-- Left-pad a string with `'0'` to the given width (`%0Nd` formatting for
its non-negative arguments). -/
def zeroPad (width : Nat) (s : String) : String :=
  ⟨List.replicate (width - s.length) '0'⟩ ++ s

/-- `datetime.date.isoformat`: `YYYY-MM-DD` with zero padding. -/
def Date.isoformat (d : Date) : String :=
  zeroPad 4 (Nat.repr d.year) ++ "-" ++ zeroPad 2 (Nat.repr d.month) ++ "-" ++
    zeroPad 2 (Nat.repr d.day)

/-- `date` comparison: lexicographic on (year, month, day). -/
def Date.Le (a b : Date) : Prop :=
  a.year < b.year ∨ (a.year = b.year ∧
    (a.month < b.month ∨ (a.month = b.month ∧ a.day ≤ b.day)))

/-- Strict `date` comparison: lexicographic on (year, month, day). -/
def Date.Lt (a b : Date) : Prop :=
  a.year < b.year ∨ (a.year = b.year ∧
    (a.month < b.month ∨ (a.month = b.month ∧ a.day < b.day)))

instance (a b : Date) : Decidable (Date.Le a b) := by
  unfold Date.Le; exact inferInstance

instance (a b : Date) : Decidable (Date.Lt a b) := by
  unfold Date.Lt; exact inferInstance

theorem Date.not_lt {a b : Date} : ¬ Date.Lt a b ↔ Date.Le b a := by
  obtain ⟨ay, am, ad⟩ := a
  obtain ⟨by_, bm, bd⟩ := b
  unfold Date.Lt Date.Le
  simp only [Date.mk.injEq]
  omega

theorem Date.lt_asymm {a b : Date} (h : Date.Lt a b) : ¬ Date.Lt b a := by
  obtain ⟨ay, am, ad⟩ := a
  obtain ⟨by_, bm, bd⟩ := b
  unfold Date.Lt at h ⊢
  omega

theorem Date.eq_of_not_lt {a b : Date} (h₁ : ¬ Date.Lt a b)
    (h₂ : ¬ Date.Lt b a) : a = b := by
  obtain ⟨ay, am, ad⟩ := a
  obtain ⟨by_, bm, bd⟩ := b
  unfold Date.Lt at h₁ h₂
  dsimp only at h₁ h₂
  simp only [Date.mk.injEq]
  omega

/-! ### Python text primitives -/

/-- The whitespace characters removed by `str.strip` (ASCII range). -/
def isPySpace (c : Char) : Bool :=
  c == ' ' || c == '\t' || c == '\n' || c == '\r' || c == '\x0b' || c == '\x0c'

/-- `str.strip()`: remove leading and trailing whitespace. -/
def pyStrip (s : String) : String :=
  ⟨((s.toList.dropWhile isPySpace).reverse.dropWhile isPySpace).reverse⟩

/-- Digits of `int(text)` after the optional sign: a non-empty run of
decimal digits. -/
def pyIntDigits (cs : List Char) : Option Int :=
  if cs ≠ [] ∧ cs.all Char.isDigit then Option.some (digitsToNat cs : Int)
  else Option.none

/-- `int(text)` on already-stripped text: optional sign, then decimal
digits; anything else raises `ValueError`, embedded as `Option.none`. -/
def pyInt (s : String) : Option Int :=
  match s.toList with
  | '-' :: rest => (pyIntDigits rest).map (fun v => -v)
  | '+' :: rest => pyIntDigits rest
  | cs => pyIntDigits cs

/-! ### `worklog/models.py` -/

/-- The `WorkEntry` dataclass.  All four fields are declared without
defaults, so the generated `__init__` requires all four arguments —
including `id`. -/
structure WorkEntry where
  id : Option Int
  day : Date
  project : String
  minutes : Int
deriving DecidableEq

/-- A CSV row as consumed by `WorkEntry.from_row` (`row.get(key, "")`: a
missing key is the empty string). -/
structure RawRow where
  date : String
  project : String
  minutes : String
deriving DecidableEq

/-- Outcome of `WorkEntry.from_row`.  `none` is Python's `None` return;
`typeError day project minutes` records that control reached
`WorkEntry(day=..., project=..., minutes=...)` with those arguments — a
dataclass call that omits the required field `id`, on which CPython raises
`TypeError`. -/
inductive FromRowResult where
  | entry (e : WorkEntry)
  | none
  | typeError (day : Date) (project : String) (minutes : Int)
deriving DecidableEq

/-- `WorkEntry.from_row`, line by line from `models.py`. -/
def WorkEntry.from_row (row : RawRow) : FromRowResult :=
  let day_text := pyStrip row.date
  let project := pyStrip row.project
  let minutes_text := pyStrip row.minutes
  match Date.fromisoformat day_text with
  | Option.none => FromRowResult.none
  | Option.some day_value =>
    match pyInt minutes_text with
    | Option.none => FromRowResult.none
    | Option.some minutes_value =>
      if minutes_value < 0 then FromRowResult.none
      else
        let project := if project = "" then "(no project)" else project
        FromRowResult.typeError day_value project minutes_value

/-- `WorkEntry.to_row`. -/
def WorkEntry.to_row (e : WorkEntry) : RawRow :=
  ⟨e.day.isoformat, e.project, toString e.minutes⟩

/-! ### `worklog/reports.py` -/

/-- `minutes_to_hhmm`: Python `//` and `%` are floor division and modulus,
and `f"{minutes:02d}"` zero-pads to two digits. -/
def minutes_to_hhmm (total_minutes : Int) : String :=
  let hours := Int.fdiv total_minutes 60
  let minutes := Int.emod total_minutes 60
  toString hours ++ ":" ++ zeroPad 2 (toString minutes)

/-- One `totals[e.project] += e.minutes` on a `defaultdict(int)`, embedded
as an association list in dict insertion order (first occurrence of a key
fixes its position). -/
def bump : List (String × Int) → String → Int → List (String × Int)
  | [], k, v => [(k, v)]
  | (k', v') :: rest, k, v =>
    if k' = k then (k', v' + v) :: rest else (k', v') :: bump rest k v

/-- `totals_by_project`: the `for e in entries` accumulation loop. -/
def totals_by_project (entries : List WorkEntry) : List (String × Int) :=
  entries.foldl (fun totals e => bump totals e.project e.minutes) []

/-- Dict lookup (`d[k]` / `d.get(k)`) on the association-list embedding. -/
def dictGet : List (String × Int) → String → Option Int
  | [], _ => Option.none
  | (k', v) :: rest, k => if k' = k then Option.some v else dictGet rest k

/-- `sum(d.values())` on the association-list embedding. -/
def sumValues (d : List (String × Int)) : Int :=
  (d.map Prod.snd).sum

/-- Result shape of `summary` (a dict of four numeric values); the float
average is embedded as an exact rational, `x / y` being the value Python's
float division approximates. -/
structure SummaryData where
  entries : Nat
  total_minutes : Int
  days : Nat
  avg_minutes_per_day : Rat
deriving DecidableEq

/-- `days_seen.add(e.day)` on a set embedded as a duplicate-free list. -/
def setAdd (s : List Date) (d : Date) : List Date :=
  if d ∈ s then s else s ++ [d]

/-- One iteration of the `for e in entries` loop in `summary`. -/
def summaryStep (acc : Int × List Date) (e : WorkEntry) : Int × List Date :=
  (acc.1 + e.minutes, setAdd acc.2 e.day)

/-- `summary`, line by line from `reports.py`. -/
def summary (entries : List WorkEntry) : SummaryData :=
  if entries.length = 0 then ⟨0, 0, 0, 0⟩
  else
    let acc := entries.foldl summaryStep (0, [])
    ⟨entries.length, acc.1, acc.2.length, (acc.1 : Rat) / (acc.2.length : Rat)⟩

/-! ### `worklog/cli.py` -/

/-- `filter_by_date_range`: swap the bounds when `end < start`, then keep
entries with `start <= e.day <= end`. -/
def filter_by_date_range (entries : List WorkEntry) (start end_ : Date) :
    List WorkEntry :=
  let p := if Date.Lt end_ start then (end_, start) else (start, end_)
  entries.filter (fun e => decide (Date.Le p.1 e.day) && decide (Date.Le e.day p.2))

/-- Stable descending insertion by second component: place `x` after every
element with an equal or larger value. -/
def insertDescBySnd (x : String × Int) :
    List (String × Int) → List (String × Int)
  | [] => [x]
  | y :: ys => if y.2 < x.2 then x :: y :: ys else y :: insertDescBySnd x ys

/-- `sorted(totals.items(), key=lambda x: x[1], reverse=True)`: stable,
descending by summed minutes. -/
def sortDescBySnd (l : List (String × Int)) : List (String × Int) :=
  l.foldl (fun acc x => insertDescBySnd x acc) []

/-- The `report` dict that `cmd_report` builds and (optionally) exports as
JSON.  `Option.none` in the last two fields embeds the key being absent
from the dict: the initial dict carries only the first five keys (the
`hhmm` defaults are commented out in the source), and the two `hhmm` keys
are added inside the `else` branch only. -/
structure Report where
  start : String
  end_ : String
  count : Nat
  totals_by_project : List (String × Int)
  grand_total_minutes : Int
  totals_by_project_hhmm : Option (List (String × String))
  grand_total_hhmm : Option String
deriving DecidableEq

/-- The report document of `cmd_report` as a function of the loaded
entries and the (already resolved) start and end dates; print statements
and the JSON file write are I/O and not modelled. -/
def cmd_report_doc (entries0 : List WorkEntry) (start end_ : Date) : Report :=
  let entries := filter_by_date_range entries0 start end_
  if entries.length = 0 then
    ⟨start.isoformat, end_.isoformat, entries.length, [], 0,
      Option.none, Option.none⟩
  else
    let totals := totals_by_project entries
    let items_sorted := sortDescBySnd totals
    let grand_total := (items_sorted.map Prod.snd).sum
    ⟨start.isoformat, end_.isoformat, entries.length, items_sorted,
      grand_total,
      Option.some (items_sorted.map (fun pm => (pm.1, minutes_to_hhmm pm.2))),
      Option.some (minutes_to_hhmm grand_total)⟩

/-! ### `worklog/storage.py` -/

/-- `delete_entry`: the statement `DELETE FROM entries WHERE id = ?`
executed against the table state, embedded as the list of stored rows; it
keeps exactly the rows whose id differs from the argument and signals
nothing about how many rows matched. -/
def delete_entry (store : List WorkEntry) (entry_id : Int) : List WorkEntry :=
  store.filter (fun e => e.id != Option.some entry_id)

/-! ### Claims about `WorkEntry.from_row` -/

/-- C1: the claim says `from_row` returns a fully valid `WorkEntry` or
`None` and never raises.  In fact the `WorkEntry` dataclass declares `id`
without a default, and `from_row` constructs `WorkEntry(day=..., project=...,
minutes=...)` without `id`, so every row that passes validation raises
`TypeError`: on the valid row `("2026-01-26", "Thesis", "45")` the call
raises instead of returning an entry, and no row at all yields an entry. -/
theorem from_row_raises_on_every_valid_row :
    WorkEntry.from_row ⟨"2026-01-26", "Thesis", "45"⟩ =
      FromRowResult.typeError ⟨2026, 1, 26⟩ "Thesis" 45 ∧
    ∀ row : RawRow, WorkEntry.from_row row = FromRowResult.none ∨
      ∃ d p m, WorkEntry.from_row row = FromRowResult.typeError d p m := by
  refine ⟨by decide, ?_⟩
  intro row
  cases hd : Date.fromisoformat (pyStrip row.date) with
  | none => left; simp [WorkEntry.from_row, hd]
  | some d =>
    cases hm : pyInt (pyStrip row.minutes) with
    | none => left; simp [WorkEntry.from_row, hd, hm]
    | some m =>
      by_cases hneg : m < 0
      · left; simp [WorkEntry.from_row, hd, hm, hneg]
      · right
        refine ⟨d, if pyStrip row.project = "" then "(no project)"
          else pyStrip row.project, m, ?_⟩
        simp [WorkEntry.from_row, hd, hm, hneg]

/-- C9: parsing rejects minutes `"-5"` and `"abc"` and date `"2026-13-40"`
(each returns `None`), but on project `"  "` with otherwise valid fields the
code does not return the normalized entry: it trims and normalizes the
label to `"(no project)"` and then raises `TypeError` at the dataclass
constructor call that omits `id`. -/
theorem from_row_rejects_and_raises :
    WorkEntry.from_row ⟨"2026-01-26", "Thesis", "-5"⟩ = FromRowResult.none ∧
    WorkEntry.from_row ⟨"2026-01-26", "Thesis", "abc"⟩ = FromRowResult.none ∧
    WorkEntry.from_row ⟨"2026-13-40", "Thesis", "45"⟩ = FromRowResult.none ∧
    WorkEntry.from_row ⟨"2026-01-26", "  ", "45"⟩ =
      FromRowResult.typeError ⟨2026, 1, 26⟩ "(no project)" 45 := by
  decide

/-- C10: the row round-trip fails on every entry.  For the valid entry
(2026-01-26, "Thesis", 45 minutes), `to_row` produces the row
`("2026-01-26", "Thesis", "45")`, and `from_row` on that row reaches the
dataclass constructor with exactly the original field values — and raises
`TypeError` there instead of returning an entry equal to the original. -/
theorem from_row_to_row_raises :
    WorkEntry.to_row ⟨Option.none, ⟨2026, 1, 26⟩, "Thesis", 45⟩ =
      ⟨"2026-01-26", "Thesis", "45"⟩ ∧
    WorkEntry.from_row
        (WorkEntry.to_row ⟨Option.none, ⟨2026, 1, 26⟩, "Thesis", 45⟩) =
      FromRowResult.typeError ⟨2026, 1, 26⟩ "Thesis" 45 := by
  decide

/-! ### Claims about `minutes_to_hhmm` -/

/-- C4: for every non-negative integer, `minutes_to_hhmm` renders the
unpadded decimal hours `n div 60`, a colon, and the minutes `n mod 60`
zero-padded to two digits; in particular `0 ↦ "0:00"`, `65 ↦ "1:05"` and
`600 ↦ "10:00"`. -/
theorem minutes_to_hhmm_correct (n : Nat) :
    minutes_to_hhmm (Int.ofNat n) =
      Nat.repr (n / 60) ++ ":" ++
        (if n % 60 < 10 then "0" ++ Nat.repr (n % 60) else Nat.repr (n % 60)) ∧
    minutes_to_hhmm 0 = "0:00" ∧
    minutes_to_hhmm 65 = "1:05" ∧
    minutes_to_hhmm 600 = "10:00" := by
  refine ⟨?_, by decide, by decide, by decide⟩
  have hdiv : Int.fdiv (Int.ofNat n) 60 = Int.ofNat (n / 60) := by
    cases n <;> rfl
  have hmod : Int.emod (Int.ofNat n) 60 = Int.ofNat (n % 60) := by
    cases n <;> rfl
  have hpad : ∀ m : Nat, m < 60 → zeroPad 2 (toString (Int.ofNat m)) =
      (if m < 10 then "0" ++ Nat.repr m else Nat.repr m) := by
    intro m hm
    interval_cases m <;> decide
  simp only [minutes_to_hhmm]
  rw [hdiv, hmod, hpad (n % 60) (Nat.mod_lt _ (by norm_num))]
  rfl

/-! ### Claims about `filter_by_date_range` -/

/-- C5: with `start ≤ end`, `filter_by_date_range` keeps exactly the
entries whose day lies in the inclusive range `start ≤ day ≤ end`; an
entry dated exactly `start` or exactly `end` is kept. -/
theorem filter_by_date_range_mem (entries : List WorkEntry)
    (start end_ : Date) (h : Date.Le start end_) (e : WorkEntry) :
    e ∈ filter_by_date_range entries start end_ ↔
      e ∈ entries ∧ Date.Le start e.day ∧ Date.Le e.day end_ := by
  have hlt : ¬ Date.Lt end_ start := Date.not_lt.mpr h
  simp [filter_by_date_range, hlt, List.mem_filter, decide_eq_true_iff,
    Bool.and_eq_true, and_assoc]

/-- Witness for C5 at concrete input: in a three-entry list with range
2026-01-01 to 2026-01-07, the entry dated exactly at the start bound is
kept. -/
theorem filter_by_date_range_mem_witness :
    (⟨Option.some 1, ⟨2026, 1, 1⟩, "Thesis", 30⟩ : WorkEntry) ∈
      filter_by_date_range
        [⟨Option.some 1, ⟨2026, 1, 1⟩, "Thesis", 30⟩,
         ⟨Option.some 2, ⟨2026, 1, 7⟩, "Code", 45⟩,
         ⟨Option.some 3, ⟨2026, 2, 9⟩, "Code", 20⟩]
        ⟨2026, 1, 1⟩ ⟨2026, 1, 7⟩ :=
  (filter_by_date_range_mem _ ⟨2026, 1, 1⟩ ⟨2026, 1, 7⟩ (by decide) _).mpr
    (by decide)

/-- C6: `filter_by_date_range` is order-independent in its two date
bounds — when `end < start` the bounds are swapped before filtering. -/
theorem filter_by_date_range_comm (entries : List WorkEntry) (a b : Date) :
    filter_by_date_range entries a b = filter_by_date_range entries b a := by
  by_cases h1 : Date.Lt b a
  · have h2 : ¬ Date.Lt a b := Date.lt_asymm h1
    simp [filter_by_date_range, h1, h2]
  · by_cases h2 : Date.Lt a b
    · simp [filter_by_date_range, h1, h2]
    · have hab : a = b := Date.eq_of_not_lt h2 h1
      subst hab
      rfl

/-! ### Claim about `delete_entry` -/

/-- C8: deleting an id that no stored entry carries is a no-op: the store
is unchanged, and in particular the stored entry count is unchanged. -/
theorem delete_entry_absent_noop (store : List WorkEntry) (entry_id : Int)
    (h : ∀ e ∈ store, e.id ≠ Option.some entry_id) :
    delete_entry store entry_id = store ∧
      (delete_entry store entry_id).length = store.length := by
  have heq : delete_entry store entry_id = store := by
    unfold delete_entry
    apply List.filter_eq_self.mpr
    intro e he
    simpa [bne_iff_ne] using h e he
  exact ⟨heq, by rw [heq]⟩

/-- Witness for C8 at concrete input: deleting id 2 from a store whose
only entry has id 1 leaves the store unchanged. -/
theorem delete_entry_absent_noop_witness :
    delete_entry [(⟨Option.some 1, ⟨2026, 1, 26⟩, "Thesis", 45⟩ : WorkEntry)] 2 =
      [⟨Option.some 1, ⟨2026, 1, 26⟩, "Thesis", 45⟩] :=
  (delete_entry_absent_noop _ 2 (by decide)).1

/-! ### Claim about `totals_by_project` -/

theorem dictGet_bump (d : List (String × Int)) (k q : String) (v : Int) :
    dictGet (bump d k v) q =
      if k = q then Option.some ((dictGet d q).getD 0 + v) else dictGet d q := by
  induction d with
  | nil =>
    by_cases h : k = q <;> simp [bump, dictGet, h]
  | cons hd tl ih =>
    obtain ⟨k', v'⟩ := hd
    by_cases h1 : k' = k
    · subst h1
      by_cases h2 : k' = q <;> simp [bump, dictGet, h2]
    · by_cases h2 : k' = q
      · subst h2
        have h3 : ¬ k = k' := fun hc => h1 hc.symm
        simp [bump, dictGet, h1, h3]
      · simp [bump, dictGet, h1, h2, ih]

theorem sumValues_bump (d : List (String × Int)) (k : String) (v : Int) :
    sumValues (bump d k v) = sumValues d + v := by
  induction d with
  | nil => simp [bump, sumValues]
  | cons hd tl ih =>
    obtain ⟨k', v'⟩ := hd
    by_cases h : k' = k <;> simp [bump, sumValues, h] <;>
      simp [sumValues] at ih <;> omega

theorem dictGet_totals_foldl (entries : List WorkEntry)
    (d : List (String × Int)) (p : String) :
    dictGet (entries.foldl (fun t e => bump t e.project e.minutes) d) p =
      if p ∈ entries.map WorkEntry.project
      then Option.some ((dictGet d p).getD 0 +
        ((entries.filter (fun e => e.project == p)).map WorkEntry.minutes).sum)
      else dictGet d p := by
  induction entries generalizing d with
  | nil => simp
  | cons e es ih =>
    simp only [List.foldl_cons, List.map_cons, List.mem_cons,
      List.filter_cons]
    rw [ih, dictGet_bump]
    by_cases hep : e.project = p
    · simp only [hep, beq_self_eq_true, if_pos rfl, eq_comm (a := p),
        true_or, if_true, List.map_cons, List.sum_cons]
      by_cases hmem : p ∈ es.map WorkEntry.project
      · simp only [hmem, if_true, Option.getD_some]
        congr 1
        omega
      · have hfil : es.filter (fun e => e.project == p) = [] := by
          rw [List.filter_eq_nil_iff]
          intro a ha
          simp only [beq_iff_eq]
          intro hc
          exact hmem (List.mem_map.mpr ⟨a, ha, hc⟩)
        simp [hmem, hfil]
    · have hpe : ¬ p = e.project := fun hc => hep hc.symm
      have hbeq : (e.project == p) = false := by
        simp [hep]
      simp [hep, hpe, hbeq]

theorem sumValues_totals_foldl (entries : List WorkEntry)
    (d : List (String × Int)) :
    sumValues (entries.foldl (fun t e => bump t e.project e.minutes) d) =
      sumValues d + (entries.map WorkEntry.minutes).sum := by
  induction entries generalizing d with
  | nil => simp
  | cons e es ih =>
    simp only [List.foldl_cons, List.map_cons, List.sum_cons]
    rw [ih, sumValues_bump]
    omega

/-- C2: `totals_by_project` maps each project label occurring in the list
to the sum of minutes of exactly the entries carrying that label, a label
absent from the list is absent from the result, and the values of the
result sum to the sum of minutes over all entries. -/
theorem totals_by_project_correct (entries : List WorkEntry) (p : String) :
    dictGet (totals_by_project entries) p =
      (if p ∈ entries.map WorkEntry.project
       then Option.some
         (((entries.filter (fun e => e.project == p)).map WorkEntry.minutes).sum)
       else Option.none) ∧
    sumValues (totals_by_project entries) =
      (entries.map WorkEntry.minutes).sum := by
  constructor
  · rw [totals_by_project, dictGet_totals_foldl]
    simp [dictGet]
  · rw [totals_by_project, sumValues_totals_foldl]
    simp [sumValues]

/-! ### Claim about `summary` -/

theorem setAdd_nodup (s : List Date) (d : Date) (hs : s.Nodup) :
    (setAdd s d).Nodup := by
  unfold setAdd
  by_cases h : d ∈ s <;> simp [h, hs, List.nodup_append]

theorem setAdd_toFinset (s : List Date) (d : Date) :
    (setAdd s d).toFinset = insert d s.toFinset := by
  unfold setAdd
  by_cases h : d ∈ s
  · rw [if_pos h]
    have : d ∈ s.toFinset := List.mem_toFinset.mpr h
    exact (Finset.insert_eq_self.mpr this).symm
  · rw [if_neg h]
    rw [List.toFinset_append, Finset.insert_eq, Finset.union_comm]
    simp

theorem summary_foldl (entries : List WorkEntry) (t : Int) (s : List Date)
    (hs : s.Nodup) :
    (entries.foldl summaryStep (t, s)).1 =
        t + (entries.map WorkEntry.minutes).sum ∧
      (entries.foldl summaryStep (t, s)).2.Nodup ∧
      (entries.foldl summaryStep (t, s)).2.toFinset =
        s.toFinset ∪ (entries.map WorkEntry.day).toFinset := by
  induction entries generalizing t s with
  | nil => simp [hs]
  | cons e es ih =>
    simp only [List.foldl_cons, List.map_cons, List.sum_cons,
      List.toFinset_cons]
    have hstep : summaryStep (t, s) e = (t + e.minutes, setAdd s e.day) := rfl
    rw [hstep]
    obtain ⟨ih1, ih2, ih3⟩ :=
      ih (t + e.minutes) (setAdd s e.day) (setAdd_nodup s e.day hs)
    refine ⟨by rw [ih1]; omega, ih2, ?_⟩
    rw [ih3, setAdd_toFinset]
    rw [Finset.insert_union, Finset.union_insert]

/-- C3: `summary` reports the entry count, the total minutes, the number
of distinct days (each date counted once however many entries share it),
and the average minutes per distinct day; on the empty list it returns all
zeros with average exactly 0. -/
theorem summary_correct (entries : List WorkEntry) :
    (summary entries).entries = entries.length ∧
    (summary entries).total_minutes = (entries.map WorkEntry.minutes).sum ∧
    (summary entries).days = (entries.map WorkEntry.day).toFinset.card ∧
    (summary entries).avg_minutes_per_day =
      ((entries.map WorkEntry.minutes).sum : Rat) /
        ((entries.map WorkEntry.day).toFinset.card : Rat) ∧
    summary [] = ⟨0, 0, 0, 0⟩ := by
  by_cases hnil : entries.length = 0
  · have h : entries = [] := List.length_eq_zero.mp hnil
    subst h
    simp [summary]
  · obtain ⟨h1, h2, h3⟩ := summary_foldl entries 0 [] List.nodup_nil
    have hdays :
        (entries.foldl summaryStep (0, [])).2.length =
          (entries.map WorkEntry.day).toFinset.card := by
      rw [← List.toFinset_card_of_nodup h2, h3]
      simp
    have hsum : summary entries =
        ⟨entries.length, (entries.foldl summaryStep (0, [])).1,
          (entries.foldl summaryStep (0, [])).2.length,
          ((entries.foldl summaryStep (0, [])).1 : Rat) /
            ((entries.foldl summaryStep (0, [])).2.length : Rat)⟩ := by
      simp only [summary, if_neg hnil]
    rw [hsum]
    dsimp only
    refine ⟨rfl, ?_, ?_, ?_, rfl⟩
    · rw [h1]; omega
    · exact hdays
    · rw [h1, hdays]; norm_num

/-! ### Claim about the report document of `cmd_report` -/

/-- C7 counterexample: the claim says all seven report fields are always
present, with empty/zero defaults when the range holds no entries.  On the
empty store with range 2026-01-01 to 2026-01-07 the built document carries
no `totals_by_project_hhmm` and no `grand_total_hhmm` key (those defaults
are commented out in the source and the keys are only added when at least
one entry is in range). -/
theorem cmd_report_doc_empty_omits_hhmm :
    (cmd_report_doc [] ⟨2026, 1, 1⟩ ⟨2026, 1, 7⟩).count = 0 ∧
    (cmd_report_doc [] ⟨2026, 1, 1⟩ ⟨2026, 1, 7⟩).totals_by_project_hhmm =
      Option.none ∧
    (cmd_report_doc [] ⟨2026, 1, 1⟩ ⟨2026, 1, 7⟩).grand_total_hhmm =
      Option.none := by
  decide

/-- C7 amended: the report always carries `start`, `end`, `count`,
`totals_by_project` and `grand_total_minutes`; with zero entries in range
the latter two take their empty/zero defaults but `totals_by_project_hhmm`
and `grand_total_hhmm` are omitted — those two keys are present exactly
when the range holds at least one entry. -/
theorem cmd_report_doc_fields (entries : List WorkEntry)
    (start end_ : Date) :
    (cmd_report_doc entries start end_).start = start.isoformat ∧
    (cmd_report_doc entries start end_).end_ = end_.isoformat ∧
    (cmd_report_doc entries start end_).count =
      (filter_by_date_range entries start end_).length ∧
    ((cmd_report_doc entries start end_).count = 0 →
      (cmd_report_doc entries start end_).totals_by_project = [] ∧
      (cmd_report_doc entries start end_).grand_total_minutes = 0 ∧
      (cmd_report_doc entries start end_).totals_by_project_hhmm =
        Option.none ∧
      (cmd_report_doc entries start end_).grand_total_hhmm = Option.none) ∧
    ((cmd_report_doc entries start end_).count ≠ 0 →
      (∃ m, (cmd_report_doc entries start end_).totals_by_project_hhmm =
        Option.some m) ∧
      (∃ g, (cmd_report_doc entries start end_).grand_total_hhmm =
        Option.some g)) := by
  by_cases h : (filter_by_date_range entries start end_).length = 0 <;>
    simp [cmd_report_doc, h]

/-- Witness for C7 amended at concrete input: with one entry in range the
`hhmm` keys are present; with an empty store `grand_total_minutes`
defaults to 0. -/
theorem cmd_report_doc_fields_witness :
    (∃ g, (cmd_report_doc
        [(⟨Option.some 1, ⟨2026, 1, 2⟩, "Thesis", 45⟩ : WorkEntry)]
        ⟨2026, 1, 1⟩ ⟨2026, 1, 7⟩).grand_total_hhmm = Option.some g) ∧
    (cmd_report_doc [] ⟨2026, 2, 1⟩ ⟨2026, 2, 7⟩).grand_total_minutes = 0 := by
  constructor
  · exact ((cmd_report_doc_fields
      [⟨Option.some 1, ⟨2026, 1, 2⟩, "Thesis", 45⟩]
      ⟨2026, 1, 1⟩ ⟨2026, 1, 7⟩).2.2.2.2 (by decide)).2
  · exact (((cmd_report_doc_fields [] ⟨2026, 2, 1⟩ ⟨2026, 2, 7⟩).2.2.2.1)
      (by decide)).2.1

end Worklog
